import Mathlib

/-!
Verification of the VxWorks-to-Linux porting library (mboxLib, msgQLib,
semLib, tickLib, wdLib) against its natural-language specification.

The C sources are shallowly embedded: each library's state is a Lean
structure mirroring the C struct, and each operation is a Lean function
transcribing the C control flow.  Blocking operations are modelled in
their single-threaded fragment: a call that in C would block forever with
no other thread able to satisfy its predicate is given the value `none`,
and a call that returns is `some (result, newState)` where `newState` is
the queue state at the return point.  Byte buffers are `List Nat`.
-/

/-- Status code OK from msgQLib.h / semLib.h (value 0). -/
def OK : Int := 0

/-- Status code ERROR from msgQLib.h / semLib.h (value -1). -/
def ERROR : Int := -1

/-- Option bit MSG_Q_PRIORITY from msgQLib.h (value 0x01). -/
def MSG_Q_PRIORITY : Nat := 1

/-- Stored message bytes: the contents of one message node's data buffer. -/
abbrev Msg := List Nat

/-! ## Message queue: the priority-array core

msgQLib.cpp keeps 256 singly linked lists (priority_heads / priority_tails,
lines 75-76).  A per-priority list is modelled as a `List Msg`, and the
whole array as a function `Nat → List Msg` read at indices 0..255. -/

/-- Model of the send-side insert at the tail of the per-priority list
(msgQLib.cpp lines 364-371: both the empty-list and the nonempty-list
branches append the new node at the tail). -/
def appendAt (f : Nat → List Msg) (p : Nat) (m : Msg) : Nat → List Msg :=
  fun i => if i = p then f i ++ [m] else f i

/-- Model of the receive-side scan of msgQReceive (msgQLib.cpp lines
430-448): starting from priority `p` and counting down, find the first
nonempty list and pop its head node; `none` when all lists down to 0 are
empty.  The scan in the C code starts at 255. -/
def deqFrom (f : Nat → List Msg) : Nat → Option (Msg × (Nat → List Msg))
  | 0 =>
    match f 0 with
    | [] => none
    | m :: rest => some (m, fun i => if i = 0 then rest else f i)
  | p + 1 =>
    match f (p + 1) with
    | [] => deqFrom f p
    | m :: rest => some (m, fun i => if i = p + 1 then rest else f i)

/-- Concatenation of the per-priority lists from priority `p` down to 0,
i.e. the order in which msgQReceive's downward scan would drain them. -/
def flattenFrom (f : Nat → List Msg) : Nat → List Msg
  | 0 => f 0
  | p + 1 => f (p + 1) ++ flattenFrom f p

/-- Repeatedly apply the msgQReceive dequeue step (scan from 255) and
collect the dequeued messages, with explicit fuel for termination. -/
def drainQueue (f : Nat → List Msg) : Nat → List Msg
  | 0 => []
  | fuel + 1 =>
    match deqFrom f 255 with
    | none => []
    | some (m, f2) => m :: drainQueue f2 fuel

theorem flattenFrom_congr (f g : Nat → List Msg) (p : Nat)
    (h : ∀ i, i ≤ p → f i = g i) : flattenFrom f p = flattenFrom g p := by
  induction p with
  | zero => exact h 0 (Nat.le_refl 0)
  | succ p ih =>
    simp only [flattenFrom]
    rw [h (p + 1) (Nat.le_refl _), ih (fun i hi => h i (Nat.le_succ_of_le hi))]

theorem deqFrom_none (f : Nat → List Msg) (p : Nat)
    (h : deqFrom f p = none) : flattenFrom f p = [] := by
  induction p with
  | zero =>
    simp only [deqFrom] at h
    cases hf : f 0 with
    | nil => simpa [flattenFrom] using hf
    | cons m rest => rw [hf] at h; exact absurd h (by simp)
  | succ p ih =>
    simp only [deqFrom] at h
    cases hf : f (p + 1) with
    | nil =>
      rw [hf] at h
      simp only [flattenFrom, hf, List.nil_append]
      exact ih h
    | cons m rest => rw [hf] at h; exact absurd h (by simp)

theorem deqFrom_some_above (f : Nat → List Msg) (p : Nat) (m : Msg)
    (f2 : Nat → List Msg) (h : deqFrom f p = some (m, f2)) :
    ∀ j, p < j → f2 j = f j := by
  induction p with
  | zero =>
    intro j hj
    simp only [deqFrom] at h
    cases hf : f 0 with
    | nil => rw [hf] at h; exact absurd h (by simp)
    | cons a rest =>
      rw [hf] at h
      simp only [Option.some.injEq, Prod.mk.injEq] at h
      rw [← h.2]
      simp [Nat.ne_of_gt hj]
  | succ p ih =>
    intro j hj
    simp only [deqFrom] at h
    cases hf : f (p + 1) with
    | nil =>
      rw [hf] at h
      exact ih h j (Nat.lt_of_succ_lt hj)
    | cons a rest =>
      rw [hf] at h
      simp only [Option.some.injEq, Prod.mk.injEq] at h
      rw [← h.2]
      simp [Nat.ne_of_gt hj]

theorem deqFrom_some_flatten (f : Nat → List Msg) (p : Nat) (m : Msg)
    (f2 : Nat → List Msg) (h : deqFrom f p = some (m, f2)) :
    flattenFrom f p = m :: flattenFrom f2 p := by
  induction p with
  | zero =>
    simp only [deqFrom] at h
    cases hf : f 0 with
    | nil => rw [hf] at h; exact absurd h (by simp)
    | cons a rest =>
      rw [hf] at h
      simp only [Option.some.injEq, Prod.mk.injEq] at h
      have hm : a = m := h.1
      have hf2 : (fun i => if i = 0 then rest else f i) = f2 := h.2
      subst hf2
      simp [flattenFrom, hf, hm]
  | succ p ih =>
    simp only [deqFrom] at h
    cases hf : f (p + 1) with
    | nil =>
      rw [hf] at h
      have htail := ih h
      have habove := deqFrom_some_above f p m f2 h (p + 1) (Nat.lt_succ_self p)
      simp only [flattenFrom, hf, List.nil_append, habove, htail]
    | cons a rest =>
      rw [hf] at h
      simp only [Option.some.injEq, Prod.mk.injEq] at h
      have hm : a = m := h.1
      have hf2 : (fun i => if i = p + 1 then rest else f i) = f2 := h.2
      subst hf2
      have hcongr : flattenFrom (fun i => if i = p + 1 then rest else f i) p
          = flattenFrom f p := by
        apply flattenFrom_congr
        intro i hi
        simp [Nat.ne_of_lt (Nat.lt_succ_of_le hi)]
      simp [flattenFrom, hf, hm, hcongr]

theorem drainQueue_eq (fuel : Nat) :
    ∀ f : Nat → List Msg, (flattenFrom f 255).length ≤ fuel →
      drainQueue f fuel = flattenFrom f 255 := by
  induction fuel with
  | zero =>
    intro f h
    have : flattenFrom f 255 = [] := List.eq_nil_of_length_eq_zero (Nat.le_zero.mp h)
    simp [drainQueue, this]
  | succ fuel ih =>
    intro f h
    cases hd : deqFrom f 255 with
    | none => simp [drainQueue, hd, deqFrom_none f 255 hd]
    | some r =>
      obtain ⟨m, f2⟩ := r
      have hflat := deqFrom_some_flatten f 255 m f2 hd
      have hlen : (flattenFrom f2 255).length ≤ fuel := by
        have := congrArg List.length hflat
        simp only [List.length_cons] at this
        omega
      simp [drainQueue, hd, hflat, ih f2 hlen]

theorem flattenFrom_split (f : Nat → List Msg) (q p : Nat) (h : p ≤ q) :
    ∃ A, flattenFrom f q = A ++ flattenFrom f p := by
  induction q with
  | zero =>
    have : p = 0 := Nat.le_zero.mp h
    exact ⟨[], by simp [this]⟩
  | succ q ih =>
    rcases Nat.eq_or_lt_of_le h with heq | hlt
    · exact ⟨[], by simp [heq]⟩
    · obtain ⟨A, hA⟩ := ih (Nat.lt_succ_iff.mp hlt)
      exact ⟨f (q + 1) ++ A, by simp [flattenFrom, hA]⟩

theorem flattenFrom_head (f : Nat → List Msg) (p : Nat) :
    ∃ C, flattenFrom f p = f p ++ C := by
  cases p with
  | zero => exact ⟨[], by simp [flattenFrom]⟩
  | succ p => exact ⟨flattenFrom f p, rfl⟩

theorem flattenFrom_two_classes (f : Nat → List Msg) (p1 p2 : Nat)
    (h12 : p1 < p2) (h255 : p2 ≤ 255) :
    ∃ A B C, flattenFrom f 255 = A ++ f p2 ++ B ++ f p1 ++ C := by
  obtain ⟨A, hA⟩ := flattenFrom_split f 255 p2 h255
  cases hp2 : p2 with
  | zero => omega
  | succ k =>
    have hk : p1 ≤ k := by omega
    obtain ⟨B, hB⟩ := flattenFrom_split f k p1 hk
    obtain ⟨C, hC⟩ := flattenFrom_head f p1
    refine ⟨A, B, C, ?_⟩
    rw [hA, hp2]
    simp only [flattenFrom, hB, hC]
    simp [List.append_assoc]

/-! ## Message queue: full state and operations (msgQLib.cpp)

The struct vx_msgq (lines 68-93).  The 256 head/tail pointer pairs are the
function `prioLists`; the FIFO ring buffer (storage, slotSize, head, tail)
is the list `fifo` of slots between head and tail in ring order, each slot
holding its length-prefixed bytes.  The node/data pools are summarized by
`freeCount` (free_count, line 92). -/

structure MsgQ where
  options : Nat
  maxMsgs : Nat
  maxMsgLen : Nat
  count : Nat
  prioLists : Nat → List Msg
  fifo : List Msg
  freeCount : Nat

/-- Clamp of the priority argument in msgQSend (msgQLib.cpp lines
321-322): negative becomes 0, above 255 becomes 255. -/
def clampPriority (priority : Int) : Nat :=
  if priority < 0 then 0 else if priority > 255 then 255 else priority.toNat

/-- Enqueue step of msgQSend after a successful wait (msgQLib.cpp lines
350-378): in priority mode take a pool node (alloc_node fails when
free_count is 0, line 142), copy nBytes, append at the tail of the
priority list; in FIFO mode write the slot at the ring tail.  Either way
increment count. -/
def msgQSendInsert (q : MsgQ) (data : List Nat) (nBytes : Nat) (prioVal : Nat) :
    Int × MsgQ :=
  if q.options.land MSG_Q_PRIORITY ≠ 0 then
    if q.freeCount = 0 then (ERROR, q)
    else (OK, { q with
      prioLists := appendAt q.prioLists prioVal (data.take nBytes),
      freeCount := q.freeCount - 1,
      count := q.count + 1 })
  else
    (OK, { q with fifo := q.fifo ++ [data.take nBytes], count := q.count + 1 })

/-- Model of msgQSend (msgQLib.cpp lines 319-384).  `bufferNull` stands
for buffer == NULL; `data` holds the first nBytes bytes of the caller's
buffer.  Single-threaded blocking fragment: with the queue full, ticks = 0
and ticks > 0 return ERROR (poll, respectively timed wait that expires
with no concurrent receiver), and ticks < 0 never returns (`none`). -/
def msgQSend (q : MsgQ) (bufferNull : Bool) (data : List Nat) (nBytes : Nat)
    (ticks : Int) (priority : Int) : Option (Int × MsgQ) :=
  if bufferNull = true ∨ q.maxMsgLen < nBytes then some (ERROR, q)
  else
    let prioVal := clampPriority priority
    if q.count = q.maxMsgs then
      if ticks = 0 then some (ERROR, q)
      else if ticks < 0 then none
      else some (ERROR, q)
    else some (msgQSendInsert q data nBytes prioVal)

/-- Dequeue step of msgQReceive after a successful wait (msgQLib.cpp lines
427-462): in priority mode scan the lists downward from 255 and pop the
first head found (none found: nothing is copied, actualLen stays 0, but
count is still decremented); in FIFO mode read the slot at the ring head.
Returns the C return value min(actualLen, maxNBytes), the bytes copied
into the caller's buffer, and the new state. -/
def msgQReceiveDequeue (q : MsgQ) (maxNBytes : Nat) : Int × Msg × MsgQ :=
  if q.options.land MSG_Q_PRIORITY ≠ 0 then
    match deqFrom q.prioLists 255 with
    | some (node, f2) =>
        (Int.ofNat (min node.length maxNBytes), node.take maxNBytes,
         { q with prioLists := f2, count := q.count - 1,
                  freeCount := q.freeCount + 1 })
    | none => ((0 : Int), [], { q with count := q.count - 1 })
  else
    match q.fifo with
    | slot :: rest =>
        (Int.ofNat (min slot.length maxNBytes), slot.take maxNBytes,
         { q with fifo := rest, count := q.count - 1 })
    | [] => ((0 : Int), [], { q with count := q.count - 1 })

/-- Model of msgQReceive (msgQLib.cpp lines 398-463).  Entry check at line
399: a null buffer or maxNBytes == 0 fails immediately.  Single-threaded
blocking fragment as in msgQSend. -/
def msgQReceive (q : MsgQ) (bufferNull : Bool) (maxNBytes : Nat) (ticks : Int) :
    Option (Int × Msg × MsgQ) :=
  if bufferNull = true ∨ maxNBytes = 0 then some (-1, [], q)
  else if q.count = 0 then
    if ticks = 0 then some (-1, [], q)
    else if ticks < 0 then none
    else some (-1, [], q)
  else some (msgQReceiveDequeue q maxNBytes)

/-! ## Mailbox: state and operations (mboxLib.cpp)

The struct Mbox (lines 16-29).  The node chain head/tail is the list
`msgs` of stored (already truncated) byte buffers. -/

structure MboxState where
  valid : Bool
  maxMsgs : Nat
  maxLen : Nat
  count : Nat
  msgs : List Msg
  waiterSend : Nat
  waiterRecv : Nat

/-- Predicate pred_can_send (mboxLib.cpp lines 75-78): an invalid mailbox
satisfies the wait immediately, otherwise there must be room. -/
def pred_can_send (m : MboxState) : Bool :=
  !m.valid || decide (m.count < m.maxMsgs)

/-- Predicate pred_has_data (mboxLib.cpp lines 80-83). -/
def pred_has_data (m : MboxState) : Bool :=
  !m.valid || decide (0 < m.count)

/-- Continuation of mboxSend after wait_pred_with_timeout returned ready
(mboxLib.cpp lines 142-157): re-check validity and room, truncate len to
maxLen, append the node at the tail, bump count. -/
def mboxSendAfterWait (m : MboxState) (data : List Nat) (len : Nat) :
    Int × MboxState :=
  if !m.valid || decide (m.maxMsgs ≤ m.count) then (-1, m)
  else
    let copyLen := min len m.maxLen
    ((0 : Int), { m with msgs := m.msgs ++ [data.take copyLen],
                         count := m.count + 1 })

/-- Model of mboxSend (mboxLib.cpp lines 132-158).  wait_pred_with_timeout
(lines 42-73) evaluates the predicate once for timeout 0; for nonzero
timeouts the single-threaded fragment is: predicate already true means no
wait, otherwise a positive timeout expires with the predicate still false
(final re-evaluation, line 63) and a negative timeout never returns.  The
waiter counter is incremented then decremented inside the wait, a net
no-op on the state at return. -/
def mboxSend (m : MboxState) (dataNull : Bool) (data : List Nat) (len : Nat)
    (timeoutTicks : Int) : Option (Int × MboxState) :=
  if dataNull = true ∧ 0 < len then some (-1, m)
  else if !m.valid then some (-1, m)
  else if pred_can_send m then some (mboxSendAfterWait m data len)
  else if timeoutTicks = 0 then some (-1, m)
  else if timeoutTicks < 0 then none
  else some (-1, m)

/-- Continuation of mboxReceive after the wait (mboxLib.cpp lines
170-187): re-check validity and count, detach the head node, copy up to
min(node.len, maxLen) bytes when a buffer is supplied, report the stored
length through outLen (second component), free the node.  The code
dereferences the head unconditionally; the empty-chain case (unreachable
while count equals the chain length) is mapped to failure. -/
def mboxReceiveAfterWait (m : MboxState) (bufNull : Bool) (maxLen : Nat) :
    Int × Nat × Msg × MboxState :=
  if !m.valid || decide (m.count = 0) then (-1, 0, [], m)
  else
    match m.msgs with
    | [] => (-1, 0, [], m)
    | node :: rest =>
        let toCopy := if bufNull = false ∧ 0 < maxLen
                      then min node.length maxLen else 0
        ((0 : Int), node.length, node.take toCopy,
         { m with msgs := rest, count := m.count - 1 })

/-- Model of mboxReceive (mboxLib.cpp lines 160-188).  Note there is no
entry check on the buffer: a null buffer or maxLen == 0 still pops. -/
def mboxReceive (m : MboxState) (bufNull : Bool) (maxLen : Nat)
    (timeoutTicks : Int) : Option (Int × Nat × Msg × MboxState) :=
  if !m.valid then some (-1, 0, [], m)
  else if pred_has_data m then some (mboxReceiveAfterWait m bufNull maxLen)
  else if timeoutTicks = 0 then some (-1, 0, [], m)
  else if timeoutTicks < 0 then none
  else some (-1, 0, [], m)

/-- First phase of mboxDelete (mboxLib.cpp line 104): flip the validity
flag under the lock. -/
def mboxDeleteSetInvalid (m : MboxState) : MboxState :=
  { m with valid := false }

/-- Final phase of mboxDelete (mboxLib.cpp lines 108-122): the deleter
stays in the drain loop (`none`) until both waiter counters are zero and
only then detaches and frees the remaining nodes. -/
def mboxDeleteFinish (m : MboxState) : Option MboxState :=
  if m.waiterSend = 0 ∧ m.waiterRecv = 0
  then some { m with msgs := [], count := 0 }
  else none

/-! ## Teardown traces

Straight-line sequences of the externally relevant primitive operations
performed by the two delete routines, in source order.  A thread blocked
in pthread_cond_wait on canRecv leaves the wait only when that condition
variable is signaled or broadcast. -/

inductive PrimEvent where
  | lockMtx | unlockMtx
  | setInvalid
  | broadcastCanSend | broadcastCanRecv | broadcastDrain
  | signalCanSend | signalCanRecv
  | drainWaitLoop
  | freeNodes | destroySync | freeHandle
deriving DecidableEq

/-- Operation sequence of msgQDelete (msgQLib.cpp lines 246-268): lock,
free the storage or pools, unlock, destroy the mutex and both condition
variables, free the queue.  No signal, no broadcast, no drain wait. -/
def msgQDeleteEvents : List PrimEvent :=
  [.lockMtx, .freeNodes, .unlockMtx, .destroySync, .freeHandle]

/-- Operation sequence of mboxDelete (mboxLib.cpp lines 100-129): lock,
invalidate, broadcast canSend, broadcast canRecv, wait on drain until the
waiter counters are zero, unlock, free the detached nodes, destroy the
synchronization objects, free the mailbox. -/
def mboxDeleteEvents : List PrimEvent :=
  [.lockMtx, .setInvalid, .broadcastCanSend, .broadcastCanRecv,
   .drainWaitLoop, .unlockMtx, .freeNodes, .destroySync, .freeHandle]

/-- One step of a thread blocked in pthread_cond_wait on canRecv: it wakes
exactly when canRecv is signaled or broadcast. -/
def blockedRecvStep (blocked : Bool) (e : PrimEvent) : Bool :=
  if blocked && (e == PrimEvent.signalCanRecv || e == PrimEvent.broadcastCanRecv)
  then false else blocked

/-- Whether a receiver blocked on canRecv is still blocked after the given
sequence of events. -/
def stillBlockedRecvAfter (evs : List PrimEvent) : Bool :=
  evs.foldl blockedRecvStep true

/-! ## Semaphores (semLib.cpp)

Binary and counting semaphores are a POSIX sem_t; its observable state is
the nonnegative value.  The mutex variant is not needed by the claims. -/

/-- Initial value installed by semBCreate (semLib.cpp line 26):
initialState ? 1 : 0. -/
def semBCreate (initialState : Nat) : Nat :=
  if initialState ≠ 0 then 1 else 0

/-- Effect of semGive on a binary or counting semaphore (semLib.cpp line
142): sem_post increments the value unconditionally. -/
def semGive (c : Nat) : Nat := c + 1

/-- Model of semTake on a binary or counting semaphore (semLib.cpp lines
102-123).  ticks = 0 is sem_trywait; ticks = -1 is sem_wait (never returns
in the single-threaded fragment when the value is 0); positive ticks is
sem_timedwait, which in that fragment succeeds immediately when the value
is positive and otherwise times out. -/
def semTake (c : Nat) (ticks : Int) : Option (Int × Nat) :=
  if ticks = 0 then
    if 0 < c then some (OK, c - 1) else some (ERROR, c)
  else if 0 < c then some (OK, c - 1)
  else if ticks < 0 then none
  else some (ERROR, c)

/-! ## Watchdog (wdLib.cpp)

The WdControl fields driving the fire decision; the handler is an opaque
function identifier. -/

structure WdControl where
  active : Bool
  canceled : Bool
  generation : Nat
  handler : Nat
  arg : Nat

/-- State produced by wdCreate (wdLib.cpp lines 72-86). -/
def wdCreate : WdControl :=
  { active := false, canceled := false, generation := 0, handler := 0, arg := 0 }

/-- State effect of wdCancel (wdLib.cpp lines 109-128): a no-op when not
active, otherwise set canceled, clear active, bump the generation. -/
def wdCancel (wd : WdControl) : WdControl :=
  if !wd.active then wd
  else { wd with canceled := true, active := false,
                 generation := wd.generation + 1 }

/-- State effect of a successful wdStart (wdLib.cpp lines 130-159): first
an internal wdCancel, then record handler and arg, clear canceled, set
active, bump the generation, and spawn a worker that captures the new
generation. -/
def wdStart (wd : WdControl) (func arg : Nat) : WdControl :=
  let wd1 := wdCancel wd
  { wd1 with handler := func, arg := arg, canceled := false, active := true,
             generation := wd1.generation + 1 }

/-- Fire decision of wd_worker on timeout (wdLib.cpp line 50): the handler
runs only if the watchdog is still active, not canceled, and the current
generation equals the worker's captured myGen.  The check on early wakeup
(line 42) is the negation of the same condition. -/
def wd_worker_fires (wd : WdControl) (myGen : Nat) : Bool :=
  wd.active && !wd.canceled && (wd.generation == myGen)

/-! ## Tick-to-millisecond conversions (three distinct ones in the code) -/

/-- Conversion used by the mailbox wait kernel and by wdStart (mboxLib.cpp
lines 56-57, wdLib.cpp lines 137-139): rate from sysClkRateGet, fallback
60 when nonpositive, then ticks*1000/rate truncated.  sysClkRateGet
(tickLib.cpp line 132) returns the process-wide rate, default 60. -/
def mbox_ticks_to_ms (sysClkRate ticks : Nat) : Nat :=
  let tps := if sysClkRate = 0 then 60 else sysClkRate
  ticks * 1000 / tps

/-- Conversion used by ticks_to_abs_timespec in msgQLib.cpp (lines 41-42):
rate from the weakly linked vxTicksPerSecondGet (default 100, line 26),
fallback 100 when nonpositive, then ticks*1000/rate truncated. -/
def msgq_ticks_to_ms (vxTicksPerSecond ticks : Nat) : Nat :=
  let tps := if vxTicksPerSecond = 0 then 100 else vxTicksPerSecond
  ticks * 1000 / tps

/-- Millisecond delay of semTake's timed path (semLib.cpp lines 91-92 and
113-114): tv_sec advances by ticks/100 and tv_nsec by (ticks%100)*10^7,
i.e. (ticks/100)*1000 + (ticks%100)*10 milliseconds, with a hardcoded 100
ticks per second regardless of the tick source. -/
def semTake_timeout_ms (ticks : Nat) : Nat :=
  ticks / 100 * 1000 + ticks % 100 * 10

/-- Modelled from the spec: ticks_to_ms of spec section 4.1, computed as
t*1000/rate with integer truncation, where rate is the current rate of the
process-wide tick source (sysClkRateGet). -/
def spec_ticks_to_ms (rate ticks : Nat) : Nat := ticks * 1000 / rate

/-! ## Example states used by the concrete theorems -/

/-- Example priority array: one message [1] at priority 1 and one message
[2] at priority 2, all other lists empty. -/
def fEx : Nat → List Msg :=
  fun i => if i = 1 then [[1]] else if i = 2 then [[2]] else []

/-- Priority-mode queue (options bit MSG_Q_PRIORITY set) holding the two
messages of fEx. -/
def qEx : MsgQ :=
  { options := 1, maxMsgs := 4, maxMsgLen := 4, count := 2,
    prioLists := fEx, fifo := [], freeCount := 2 }

theorem clampPriority_ofNat (p : Nat) (hp : p ≤ 255) :
    clampPriority (Int.ofNat p) = p := by
  have hcast : Int.ofNat p = (p : Int) := rfl
  unfold clampPriority
  rw [hcast, if_neg (by omega), if_neg (by omega)]
  simp

/-- C1, counterexample: with a message [1] queued at priority 1 and a
message [2] queued at priority 2, msgQReceive returns the priority-2
message first (the downward scan from 255 finds it first), and draining
yields [2] then [1] — not the priority-1 message first as the claim
states. -/
theorem c1_counterexample_highest_number_first :
    (msgQReceive qEx false 4 0).map (fun r => r.2.1) = some [2] ∧
    drainQueue fEx 2 = [[2], [1]] ∧
    ([1] : Msg) ≠ [2] := by
  refine ⟨rfl, rfl, by decide⟩

/-- C1, amended: in a priority-mode message queue the code treats the
larger priority number as more important: for any two queued messages
with priorities p1 < p2, the one with priority p2 is received before the
one with priority p1 when the queue is drained by msgQReceive dequeue
steps. -/
theorem c1_amended_higher_number_received_first (f : Nat → List Msg)
    (p1 p2 : Nat) (m1 m2 : Msg) (X Y U V : List Msg)
    (h12 : p1 < p2) (h255 : p2 ≤ 255)
    (h2 : f p2 = X ++ m2 :: Y) (h1 : f p1 = U ++ m1 :: V) :
    ∃ A B C, drainQueue f (flattenFrom f 255).length
      = A ++ (m2 :: (B ++ (m1 :: C))) := by
  obtain ⟨A0, B0, C0, hsplit⟩ := flattenFrom_two_classes f p1 p2 h12 h255
  refine ⟨A0 ++ X, Y ++ B0 ++ U, V ++ C0, ?_⟩
  rw [drainQueue_eq _ f (Nat.le_refl _), hsplit, h1, h2]
  simp [List.append_assoc]

/-- Witness for the amended C1 at the concrete queue fEx. -/
theorem c1_amended_witness :
    (1 < 2 ∧ 2 ≤ 255 ∧ fEx 2 = [] ++ [2] :: [] ∧ fEx 1 = [] ++ [1] :: []) ∧
    (∃ A B C, drainQueue fEx (flattenFrom fEx 255).length
       = A ++ (([2] : Msg) :: (B ++ (([1] : Msg) :: C)))) := by
  exact ⟨⟨by decide, by decide, rfl, rfl⟩,
    c1_amended_higher_number_received_first fEx 1 2 [1] [2] [] [] [] []
      (by decide) (by decide) rfl rfl⟩

/-- C7: in a priority-mode message queue, two sends at the same priority p
that both complete (here via the non-blocking path: the queue has room and
pool nodes for both) put a then b at the tail of the priority-p list, and
draining the queue by msgQReceive dequeue steps yields a immediately
before b: first-in-first-out order is preserved among equal priorities. -/
theorem c7_priority_fifo_stable (q : MsgQ) (a b : Msg) (p : Nat)
    (hp : p ≤ 255)
    (hmode : q.options.land MSG_Q_PRIORITY ≠ 0)
    (hcap : q.count + 2 ≤ q.maxMsgs)
    (hfree : 2 ≤ q.freeCount)
    (hla : a.length ≤ q.maxMsgLen) (hlb : b.length ≤ q.maxMsgLen) :
    ∃ q1 q2,
      msgQSend q false a a.length 0 (Int.ofNat p) = some (OK, q1) ∧
      msgQSend q1 false b b.length 0 (Int.ofNat p) = some (OK, q2) ∧
      ∃ A C, drainQueue q2.prioLists (flattenFrom q2.prioLists 255).length
        = A ++ (a :: (b :: C)) := by
  have hclamp := clampPriority_ofNat p hp
  refine ⟨{ q with prioLists := appendAt q.prioLists p a, freeCount := q.freeCount - 1, count := q.count + 1 }, { q with prioLists := appendAt (appendAt q.prioLists p a) p b, freeCount := q.freeCount - 1 - 1, count := q.count + 1 + 1 }, ?_, ?_, ?_⟩
  · unfold msgQSend
    rw [if_neg (by simp; omega), hclamp, if_neg (by omega)]
    unfold msgQSendInsert
    rw [if_pos hmode, if_neg (by omega)]
    simp [OK]
  · unfold msgQSend
    rw [if_neg (by simp; omega), hclamp, if_neg (by simp; omega)]
    unfold msgQSendInsert
    rw [if_pos (by simpa using hmode), if_neg (by simp; omega)]
    simp [OK]
  · obtain ⟨A0, hA0⟩ :=
      flattenFrom_split (appendAt (appendAt q.prioLists p a) p b) 255 p hp
    obtain ⟨C0, hC0⟩ :=
      flattenFrom_head (appendAt (appendAt q.prioLists p a) p b) p
    refine ⟨A0 ++ q.prioLists p, C0, ?_⟩
    rw [drainQueue_eq _ _ (Nat.le_refl _)]
    show flattenFrom (appendAt (appendAt q.prioLists p a) p b) 255 = _
    rw [hA0, hC0]
    have hval : appendAt (appendAt q.prioLists p a) p b p
        = q.prioLists p ++ [a] ++ [b] := by
      simp [appendAt]
    rw [hval]
    simp [List.append_assoc]

/-- Witness for C7 at the concrete queue qEx with two sends at priority 3. -/
theorem c7_witness :
    (3 ≤ 255 ∧ qEx.options.land MSG_Q_PRIORITY ≠ 0 ∧ qEx.count + 2 ≤ qEx.maxMsgs
      ∧ 2 ≤ qEx.freeCount ∧ ([5] : Msg).length ≤ qEx.maxMsgLen
      ∧ ([6] : Msg).length ≤ qEx.maxMsgLen) ∧
    (∃ q1 q2,
      msgQSend qEx false [5] ([5] : Msg).length 0 (Int.ofNat 3) = some (OK, q1) ∧
      msgQSend q1 false [6] ([6] : Msg).length 0 (Int.ofNat 3) = some (OK, q2) ∧
      ∃ A C, drainQueue q2.prioLists (flattenFrom q2.prioLists 255).length
        = A ++ (([5] : Msg) :: (([6] : Msg) :: C))) := by
  exact ⟨⟨by decide, by decide, by decide, by decide, by decide, by decide⟩,
    c7_priority_fifo_stable qEx [5] [6] 3 (by decide) (by decide) (by decide)
      (by decide) (by decide) (by decide)⟩

/-- C2: evaluation of the teardown traces.  msgQDelete performs no signal,
no broadcast and no drain wait on its way to destroying and freeing the
queue, so a receiver blocked forever on canRecv is still blocked after the
whole delete sequence has run — in contrast to mboxDelete, whose broadcast
wakes such a receiver.  This contradicts the claim (and the code's own
header comment) that blocked threads are unblocked with an error and that
the deleter waits for them to depart. -/
theorem c2_msgQDelete_leaves_waiters_blocked :
    stillBlockedRecvAfter msgQDeleteEvents = true ∧
    msgQDeleteEvents.count PrimEvent.broadcastCanRecv = 0 ∧
    msgQDeleteEvents.count PrimEvent.signalCanRecv = 0 ∧
    msgQDeleteEvents.count PrimEvent.drainWaitLoop = 0 ∧
    stillBlockedRecvAfter mboxDeleteEvents = false := by
  refine ⟨rfl, rfl, rfl, rfl, rfl⟩

/-- C3, counterexample: with the tick source at its default rate of 60
(tickLib.cpp line 31) and a timeout of 3 ticks, the spec formula
t*1000/rate gives 50 ms, but semTake waits 30 ms (hardcoded 100 ticks/s)
and the message queue also waits 30 ms (vxTicksPerSecondGet default 100),
so not every blocking primitive derives its milliseconds from
sysClkRateGet. -/
theorem c3_counterexample_rates_disagree :
    semTake_timeout_ms 3 = 30 ∧ msgq_ticks_to_ms 100 3 = 30 ∧
    spec_ticks_to_ms 60 3 = 50 ∧ (30 : Nat) ≠ 50 := by
  refine ⟨rfl, rfl, rfl, by decide⟩

/-- C3, amended: each primitive truncates t*1000/rate, but with its own
rate source: the mailbox wait kernel (and wdStart) uses sysClkRateGet with
fallback 60; the message queue uses vxTicksPerSecondGet (default 100); and
semTake ignores the tick source, hardcoding 100 ticks per second, which
equals 10 ms per tick, i.e. the spec formula at the fixed rate 100. -/
theorem c3_amended_per_primitive_rates (r v t : Nat) (hr : 0 < r) (hv : 0 < v) :
    mbox_ticks_to_ms r t = spec_ticks_to_ms r t ∧
    msgq_ticks_to_ms v t = t * 1000 / v ∧
    semTake_timeout_ms t = 10 * t ∧
    semTake_timeout_ms t = spec_ticks_to_ms 100 t := by
  have h10 : semTake_timeout_ms t = 10 * t := by
    have h := Nat.div_add_mod t 100
    unfold semTake_timeout_ms
    omega
  refine ⟨?_, ?_, h10, ?_⟩
  · unfold mbox_ticks_to_ms spec_ticks_to_ms
    rw [if_neg (Nat.pos_iff_ne_zero.mp hr)]
  · unfold msgq_ticks_to_ms
    rw [if_neg (Nat.pos_iff_ne_zero.mp hv)]
  · rw [h10]
    unfold spec_ticks_to_ms
    rw [show t * 1000 = 10 * t * 100 by ring]
    rw [Nat.mul_div_cancel _ (by norm_num)]

/-- Witness for the amended C3 at rates 60 and 100 with a 3-tick timeout. -/
theorem c3_amended_witness :
    (0 < 60 ∧ 0 < 100) ∧
    (mbox_ticks_to_ms 60 3 = spec_ticks_to_ms 60 3 ∧
     msgq_ticks_to_ms 100 3 = 3 * 1000 / 100 ∧
     semTake_timeout_ms 3 = 10 * 3 ∧
     semTake_timeout_ms 3 = spec_ticks_to_ms 100 3) := by
  exact ⟨⟨by decide, by decide⟩,
    c3_amended_per_primitive_rates 60 100 3 (by decide) (by decide)⟩

/-- FIFO-mode queue used by the C4 counterexample: maxMsgLen is 4 and the
queue is empty. -/
def qC4 : MsgQ :=
  { options := 0, maxMsgs := 4, maxMsgLen := 4, count := 0,
    prioLists := fun _ => [], fifo := [], freeCount := 0 }

/-- C4, counterexample: sending 5 bytes to a queue with maxMsgLen = 4 is
rejected at the entry check of msgQSend (line 320) with ERROR and the
queue unchanged — the message is not truncated and not stored. -/
theorem c4_counterexample_oversized_send_rejected :
    msgQSend qC4 false [1, 2, 3, 4, 5] 5 0 0 = some (ERROR, qC4) ∧
    ERROR ≠ OK := by
  refine ⟨rfl, by decide⟩

/-- C4, amended: the message queue rejects nbytes > maxMsgLen with ERROR
for every timeout value, leaving the queue unchanged; it is the mailbox
that truncates an oversized send to maxLen bytes, and mailbox receive
reports the stored (already truncated) length through outLen while
copying at most min(storedLen, maxLen-of-buffer) bytes. -/
theorem c4_amended_length_discipline :
    (∀ (q : MsgQ) (data : List Nat) (n : Nat) (ticks priority : Int),
       q.maxMsgLen < n →
       msgQSend q false data n ticks priority = some (ERROR, q)) ∧
    (∀ (m : MboxState) (data : List Nat) (len : Nat),
       m.valid = true → m.maxLen < len → m.count < m.maxMsgs →
       mboxSend m false data len 0
         = some (0, { m with msgs := m.msgs ++ [data.take m.maxLen], count := m.count + 1 }) ∧
       (m.maxLen ≤ data.length → (data.take m.maxLen).length = m.maxLen)) ∧
    (∀ (m : MboxState) (node : Msg) (rest : List Msg) (maxLen : Nat),
       m.valid = true → m.count ≠ 0 → m.msgs = node :: rest → 0 < maxLen →
       mboxReceive m false maxLen 0
         = some (0, node.length, node.take (min node.length maxLen),
                 { m with msgs := rest, count := m.count - 1 })) := by
  refine ⟨?_, ?_, ?_⟩
  · intro q data n ticks priority hlen
    unfold msgQSend
    rw [if_pos (Or.inr hlen)]
  · intro m data len hvalid hlen hroom
    constructor
    · unfold mboxSend
      rw [if_neg (by simp), if_neg (by simp [hvalid]),
          if_pos (by simp [pred_can_send, hvalid, hroom])]
      unfold mboxSendAfterWait
      rw [if_neg (by simp [hvalid]; omega)]
      have hmin : min len m.maxLen = m.maxLen :=
        Nat.min_eq_right (Nat.le_of_lt hlen)
      simp only [hmin]
    · intro hdata
      simp [List.length_take]
      omega
  · intro m node rest maxLen hvalid hcount hmsgs hbuf
    unfold mboxReceive
    rw [if_neg (by simp [hvalid]),
        if_pos (by simp [pred_has_data, hvalid]; omega)]
    unfold mboxReceiveAfterWait
    rw [if_neg (by simp [hvalid, hcount])]
    rw [hmsgs]
    simp [hbuf]

/-- Witness for the amended C4: the oversized send [9,9,9,9,9] into a
2-capacity, maxLen-3 mailbox is stored as the 3 bytes [9,9,9], and the
follow-up receive reports length 2 for the stored head [7,8]. -/
theorem c4_amended_witness :
    (qC4.maxMsgLen < 5 ∧
     msgQSend qC4 false [1, 2, 3, 4, 5] 5 (-1) 0 = some (ERROR, qC4)) ∧
    (mboxSend { valid := true, maxMsgs := 2, maxLen := 3, count := 0, msgs := [], waiterSend := 0, waiterRecv := 0 } false [9, 9, 9, 9, 9] 5 0
       = some (0, { valid := true, maxMsgs := 2, maxLen := 3, count := 1, msgs := [[9, 9, 9]], waiterSend := 0, waiterRecv := 0 })) ∧
    (mboxReceive { valid := true, maxMsgs := 2, maxLen := 3, count := 1, msgs := [[7, 8]], waiterSend := 0, waiterRecv := 0 } false 10 0
       = some (0, 2, [7, 8], { valid := true, maxMsgs := 2, maxLen := 3, count := 0, msgs := [], waiterSend := 0, waiterRecv := 0 })) := by
  refine ⟨⟨by decide, c4_amended_length_discipline.1 qC4 [1, 2, 3, 4, 5] 5 (-1) 0 (by decide)⟩, ?_, ?_⟩
  · have h := (c4_amended_length_discipline.2.1
      { valid := true, maxMsgs := 2, maxLen := 3, count := 0, msgs := [], waiterSend := 0, waiterRecv := 0 }
      [9, 9, 9, 9, 9] 5 rfl (by decide) (by decide)).1
    simpa using h
  · have h := c4_amended_length_discipline.2.2
      { valid := true, maxMsgs := 2, maxLen := 3, count := 1, msgs := [[7, 8]], waiterSend := 0, waiterRecv := 0 }
      [7, 8] [] 10 rfl (by decide) rfl (by decide)
    simpa using h

/-- C5: mboxDelete first flips the validity flag and broadcasts canSend
and canRecv, then stays in the drain loop until both waiter counters are
zero, and only after that frees the remaining nodes and the mailbox; and
once the mailbox is invalid, every send and every receive — at entry or at
the re-check after being woken from a wait — returns -1. -/
theorem c5_mboxDelete_drains_then_frees :
    (mboxDeleteEvents.indexOf PrimEvent.setInvalid
       < mboxDeleteEvents.indexOf PrimEvent.drainWaitLoop ∧
     mboxDeleteEvents.indexOf PrimEvent.broadcastCanSend
       < mboxDeleteEvents.indexOf PrimEvent.drainWaitLoop ∧
     mboxDeleteEvents.indexOf PrimEvent.broadcastCanRecv
       < mboxDeleteEvents.indexOf PrimEvent.drainWaitLoop ∧
     mboxDeleteEvents.indexOf PrimEvent.drainWaitLoop
       < mboxDeleteEvents.indexOf PrimEvent.freeNodes ∧
     mboxDeleteEvents.indexOf PrimEvent.freeNodes
       < mboxDeleteEvents.indexOf PrimEvent.freeHandle) ∧
    (∀ m : MboxState, (mboxDeleteSetInvalid m).valid = false) ∧
    (∀ m : MboxState, 0 < m.waiterSend ∨ 0 < m.waiterRecv →
       mboxDeleteFinish m = none) ∧
    (∀ m : MboxState, m.waiterSend = 0 → m.waiterRecv = 0 →
       mboxDeleteFinish m = some { m with msgs := [], count := 0 }) ∧
    (∀ (m : MboxState) (dataNull : Bool) (data : List Nat) (len : Nat) (ticks : Int),
       m.valid = false → mboxSend m dataNull data len ticks = some (-1, m)) ∧
    (∀ (m : MboxState) (data : List Nat) (len : Nat),
       m.valid = false → mboxSendAfterWait m data len = (-1, m)) ∧
    (∀ (m : MboxState) (bufNull : Bool) (maxLen : Nat) (ticks : Int),
       m.valid = false → mboxReceive m bufNull maxLen ticks = some (-1, 0, [], m)) ∧
    (∀ (m : MboxState) (bufNull : Bool) (maxLen : Nat),
       m.valid = false → mboxReceiveAfterWait m bufNull maxLen = (-1, 0, [], m)) := by
  refine ⟨⟨by decide, by decide, by decide, by decide, by decide⟩,
          fun m => rfl, ?_, ?_, ?_, ?_, ?_, ?_⟩
  · intro m h
    unfold mboxDeleteFinish
    rw [if_neg (by omega)]
  · intro m hs hr
    unfold mboxDeleteFinish
    rw [if_pos ⟨hs, hr⟩]
  · intro m dataNull data len ticks hinv
    unfold mboxSend
    by_cases h : dataNull = true ∧ 0 < len
    · rw [if_pos h]
    · rw [if_neg h, if_pos (by simp [hinv])]
  · intro m data len hinv
    unfold mboxSendAfterWait
    rw [if_pos (by simp [hinv])]
  · intro m bufNull maxLen ticks hinv
    unfold mboxReceive
    rw [if_pos (by simp [hinv])]
  · intro m bufNull maxLen hinv
    unfold mboxReceiveAfterWait
    rw [if_pos (by simp [hinv])]

/-- Invalid mailbox with no waiters, used by the C5 witness. -/
def mInvalid : MboxState :=
  { valid := false, maxMsgs := 2, maxLen := 4, count := 1, msgs := [[3]],
    waiterSend := 0, waiterRecv := 0 }

/-- Invalid mailbox with one blocked sender, used by the C5 witness. -/
def mWaiters : MboxState :=
  { valid := false, maxMsgs := 2, maxLen := 4, count := 0, msgs := [],
    waiterSend := 1, waiterRecv := 0 }

/-- Witness for C5: the deleter does not finish while a waiter counter is
nonzero, finishes once both are zero, and send/receive on the invalidated
mailbox fail with -1 both at entry and after a wait. -/
theorem c5_witness :
    mboxDeleteFinish mWaiters = none ∧
    mboxDeleteFinish mInvalid = some { mInvalid with msgs := [], count := 0 } ∧
    mboxSend mInvalid false [1] 1 (-1) = some (-1, mInvalid) ∧
    mboxSendAfterWait mInvalid [1] 1 = (-1, mInvalid) ∧
    mboxReceive mInvalid false 4 (-1) = some (-1, 0, [], mInvalid) ∧
    mboxReceiveAfterWait mInvalid false 4 = (-1, 0, [], mInvalid) := by
  refine ⟨c5_mboxDelete_drains_then_frees.2.2.1 mWaiters (Or.inl (by decide)),
    c5_mboxDelete_drains_then_frees.2.2.2.1 mInvalid rfl rfl,
    c5_mboxDelete_drains_then_frees.2.2.2.2.1 mInvalid false [1] 1 (-1) rfl,
    c5_mboxDelete_drains_then_frees.2.2.2.2.2.1 mInvalid [1] 1 rfl,
    c5_mboxDelete_drains_then_frees.2.2.2.2.2.2.1 mInvalid false 4 (-1) rfl,
    c5_mboxDelete_drains_then_frees.2.2.2.2.2.2.2 mInvalid false 4 rfl⟩

/-- C6: evaluation of the failing scenario.  A binary semaphore created
available (value 1) and then given once has value 2 — sem_post increments
unconditionally instead of saturating at 1 — after which two takes succeed
with no intervening give, contradicting the claim (and the code's own
note that a binary semaphore has only states 0 and 1). -/
theorem c6_binary_semGive_not_saturating :
    semBCreate 1 = 1 ∧
    semGive (semBCreate 1) = 2 ∧
    semTake (semGive (semBCreate 1)) 0 = some (OK, 1) ∧
    semTake 1 0 = some (OK, 0) := by
  refine ⟨rfl, rfl, rfl, rfl⟩

/-- C8: every successful wdStart strictly increases the generation
counter; a worker fires only when its captured generation equals the
current one; and after cancel-then-restart (the internal effect of a
second wdStart before the first deadline) the first worker's captured
generation fails the fire check — both right after the internal cancel and
after the full second start — while the second worker's succeeds, with the
second handler and the second argument installed. -/
theorem c8_wd_generation_supersedes :
    (∀ (wd : WdControl) (f a : Nat), wd.generation < (wdStart wd f a).generation) ∧
    (∀ (wd : WdControl) (g : Nat), wd_worker_fires wd g = true → wd.generation = g) ∧
    (∀ (wd : WdControl) (f1 a1 f2 a2 : Nat),
       wd_worker_fires (wdCancel (wdStart wd f1 a1)) (wdStart wd f1 a1).generation = false ∧
       wd_worker_fires (wdStart (wdStart wd f1 a1) f2 a2) (wdStart wd f1 a1).generation = false ∧
       wd_worker_fires (wdStart (wdStart wd f1 a1) f2 a2) (wdStart (wdStart wd f1 a1) f2 a2).generation = true ∧
       (wdStart (wdStart wd f1 a1) f2 a2).handler = f2 ∧
       (wdStart (wdStart wd f1 a1) f2 a2).arg = a2) := by
  refine ⟨?_, ?_, ?_⟩
  · intro wd f a
    unfold wdStart wdCancel
    by_cases h : wd.active <;> simp [h]
    omega
  · intro wd g h
    unfold wd_worker_fires at h
    simp only [Bool.and_eq_true, beq_iff_eq] at h
    exact h.2
  · intro wd f1 a1 f2 a2
    refine ⟨?_, ?_, ?_, rfl, rfl⟩
    · unfold wd_worker_fires wdStart wdCancel
      by_cases h : wd.active <;> simp [h]
    · unfold wd_worker_fires wdStart wdCancel
      by_cases h : wd.active <;> simp [h]
    · unfold wd_worker_fires wdStart wdCancel
      by_cases h : wd.active <;> simp [h]

/-- Witness for C8: the watchdog started once from the idle created state
has generation 1 and its worker passes the fire check at captured
generation 1. -/
theorem c8_witness :
    wd_worker_fires (wdStart wdCreate 5 7) 1 = true ∧
    (wdStart wdCreate 5 7).generation = 1 := by
  exact ⟨by decide, c8_wd_generation_supersedes.2.1 (wdStart wdCreate 5 7) 1 (by decide)⟩

/-- C9: a zero-tick call on any blocking primitive always returns (the
model value is some, never the blocked value none), and an unsuccessful
zero-tick poll — full queue for send, empty queue for receive, zero
semaphore value for take — returns failure with the state unchanged, so a
second consecutive call fails identically. -/
theorem c9_zero_timeout_poll :
    (∀ (q : MsgQ) (data : List Nat) (n : Nat) (priority : Int),
       (msgQSend q false data n 0 priority).isSome = true) ∧
    (∀ (q : MsgQ) (maxN : Nat), (msgQReceive q false maxN 0).isSome = true) ∧
    (∀ (m : MboxState) (dataNull : Bool) (data : List Nat) (len : Nat),
       (mboxSend m dataNull data len 0).isSome = true) ∧
    (∀ (m : MboxState) (bufNull : Bool) (maxLen : Nat),
       (mboxReceive m bufNull maxLen 0).isSome = true) ∧
    (∀ c : Nat, (semTake c 0).isSome = true) ∧
    (∀ (q : MsgQ) (data : List Nat) (n : Nat) (priority : Int),
       n ≤ q.maxMsgLen → q.count = q.maxMsgs →
       msgQSend q false data n 0 priority = some (ERROR, q)) ∧
    (∀ (q : MsgQ) (maxN : Nat), q.count = 0 →
       msgQReceive q false maxN 0 = some (-1, [], q)) ∧
    (∀ (m : MboxState) (dataNull : Bool) (data : List Nat) (len : Nat),
       m.valid = true → m.maxMsgs ≤ m.count →
       mboxSend m dataNull data len 0 = some (-1, m)) ∧
    (∀ (m : MboxState) (bufNull : Bool) (maxLen : Nat),
       m.valid = true → m.count = 0 →
       mboxReceive m bufNull maxLen 0 = some (-1, 0, [], m)) ∧
    (semTake 0 0 = some (ERROR, 0) ∧ semTake 0 0 = some (ERROR, 0)) := by
  refine ⟨?_, ?_, ?_, ?_, ?_, ?_, ?_, ?_, ?_, ⟨rfl, rfl⟩⟩
  · intro q data n priority
    unfold msgQSend
    split
    · simp
    · split <;> simp
  · intro q maxN
    unfold msgQReceive
    split
    · simp
    · split <;> simp
  · intro m dataNull data len
    unfold mboxSend
    by_cases h1 : dataNull = true ∧ 0 < len
    · simp [h1]
    · by_cases h2 : !m.valid
      · simp [h1, h2]
      · by_cases h3 : pred_can_send m <;> simp [h1, h2, h3]
  · intro m bufNull maxLen
    unfold mboxReceive
    by_cases h1 : !m.valid
    · simp [h1]
    · by_cases h2 : pred_has_data m <;> simp [h1, h2]
  · intro c
    unfold semTake
    by_cases h : 0 < c <;> simp [h]
  · intro q data n priority hn hfull
    unfold msgQSend
    rw [if_neg (by simp; omega), if_pos hfull, if_pos rfl]
  · intro q maxN hempty
    unfold msgQReceive
    by_cases h1 : false = true ∨ maxN = 0
    · simp at h1
      simp [h1]
    · rw [if_neg h1, if_pos hempty, if_pos rfl]
  · intro m dataNull data len hvalid hfull
    unfold mboxSend
    by_cases h1 : dataNull = true ∧ 0 < len
    · rw [if_pos h1]
    · rw [if_neg h1, if_neg (by simp [hvalid]),
          if_neg (by simp [pred_can_send, hvalid]; omega), if_pos rfl]
  · intro m bufNull maxLen hvalid hempty
    unfold mboxReceive
    rw [if_neg (by simp [hvalid]),
        if_neg (by simp [pred_has_data, hvalid, hempty]), if_pos rfl]

/-- Full FIFO queue used by the C9 witness. -/
def qFull : MsgQ :=
  { options := 0, maxMsgs := 1, maxMsgLen := 4, count := 1,
    prioLists := fun _ => [], fifo := [[9]], freeCount := 0 }

/-- Empty FIFO queue used by the C9 witness. -/
def qEmpty : MsgQ :=
  { options := 0, maxMsgs := 2, maxMsgLen := 4, count := 0,
    prioLists := fun _ => [], fifo := [], freeCount := 0 }

/-- Full valid mailbox used by the C9 witness. -/
def mFull : MboxState :=
  { valid := true, maxMsgs := 1, maxLen := 4, count := 1, msgs := [[9]],
    waiterSend := 0, waiterRecv := 0 }

/-- Empty valid mailbox used by the C9 witness. -/
def mEmpty : MboxState :=
  { valid := true, maxMsgs := 2, maxLen := 4, count := 0, msgs := [],
    waiterSend := 0, waiterRecv := 0 }

/-- Witness for C9 at concrete full/empty states. -/
theorem c9_witness :
    msgQSend qFull false [1] 1 0 0 = some (ERROR, qFull) ∧
    msgQReceive qEmpty false 4 0 = some (-1, [], qEmpty) ∧
    mboxSend mFull false [1] 1 0 = some (-1, mFull) ∧
    mboxReceive mEmpty false 4 0 = some (-1, 0, [], mEmpty) := by
  exact ⟨c9_zero_timeout_poll.2.2.2.2.2.1 qFull [1] 1 0 (by decide) (by decide),
    c9_zero_timeout_poll.2.2.2.2.2.2.1 qEmpty 4 (by decide),
    c9_zero_timeout_poll.2.2.2.2.2.2.2.1 mFull false [1] 1 rfl (by decide),
    c9_zero_timeout_poll.2.2.2.2.2.2.2.2.1 mEmpty false 4 rfl rfl⟩

/-- Valid mailbox holding one two-byte message, used by C10 to contrast
with the message queue. -/
def mOne : MboxState :=
  { valid := true, maxMsgs := 4, maxLen := 4, count := 1, msgs := [[7, 8]],
    waiterSend := 0, waiterRecv := 0 }

/-- C10: msgQReceive with a null buffer, or with maxNBytes = 0, returns -1
immediately for every queue state and every timeout, dequeuing nothing;
the mailbox, by contrast, pops the head message even with a null buffer
(returning success and the stored length, copying nothing). -/
theorem c10_msgQReceive_needs_buffer :
    (∀ (q : MsgQ) (maxN : Nat) (ticks : Int),
       msgQReceive q true maxN ticks = some (-1, [], q)) ∧
    (∀ (q : MsgQ) (ticks : Int),
       msgQReceive q false 0 ticks = some (-1, [], q)) ∧
    mboxReceive mOne true 0 0
      = some (0, 2, [], { mOne with msgs := [], count := 0 }) := by
  refine ⟨?_, ?_, rfl⟩
  · intro q maxN ticks
    unfold msgQReceive
    rw [if_pos (Or.inl rfl)]
  · intro q ticks
    unfold msgQReceive
    rw [if_pos (Or.inr rfl)]
